import Mathlib

/-!
Shallow embedding of the restaurant ordering backend (`main.py`): the fuzzy
product resolver of `add_to_order_tool`, the order-persistence tool
`place_order`, and the response-normalization pipeline of the `/agent`
endpoint `ask_agent` (field copy from the raw agent output, keyword redirect
inference, the confirm-order safety net, and text-to-speech attachment).
External collaborators (the language model dispatch `Runner.run`, `json.loads`,
the speech services, random temp-file names) enter as explicit function
parameters; MongoDB collections are lists, and an insert is an appended record.
-/

/- ===== Python-style dynamic JSON values ===== -/

/-- Dynamic values as produced by `json.loads` and passed around in the Python
dicts of `main.py` (None / bool / number / str / list / dict). Numbers are
modeled as rationals. -/
inductive JVal where
  | null
  | bool (b : Bool)
  | num (q : ℚ)
  | str (s : String)
  | arr (elems : List JVal)
  | obj (fields : List (String × JVal))

/-- Python truthiness of a `JVal` (`if value:`): None, False, 0, "", [] and
empty dicts are falsy. -/
def truthy : JVal → Bool
  | .null => false
  | .bool b => b
  | .num q => decide (q ≠ 0)
  | .str s => decide (s ≠ "")
  | .arr xs => !xs.isEmpty
  | .obj fs => !fs.isEmpty

/-- Python `d.get(k)` on a dict modeled as an association list (dict keys are
unique, so the first hit is the value). -/
def jLookup (fields : List (String × JVal)) (k : String) : Option JVal :=
  (fields.find? (fun kv => kv.1 == k)).map (fun kv => kv.2)

/-- Numeric reading of a `JVal` (non-numbers read as 0). -/
def jNum : JVal → ℚ
  | .num q => q
  | _ => 0

/-- Python `needle in hay` on strings: substring containment. -/
def pyIn (needle hay : String) : Bool := decide (needle.data <:+: hay.data)

/-- Python `s.lower()` (per-character lowering; agrees with CPython on ASCII). -/
def pyLower (s : String) : String := ⟨s.data.map Char.toLower⟩

/-- The whitespace set of Python `str.strip()`. -/
def pyIsSpace (c : Char) : Bool :=
  c == ' ' || c == '\t' || c == '\n' || c == '\r' || c == '\x0b' || c == '\x0c'

/-- Python `s.strip()`. -/
def pyStrip (s : String) : String :=
  ⟨((s.data.dropWhile pyIsSpace).reverse.dropWhile pyIsSpace).reverse⟩

/- ===== Catalog and fuzzy matcher (`add_to_order_tool`, lines 224-283) ===== -/

/-- A catalog product as served by `GET /products` (`serialize_item`). The
numeric `price` models the `float(product.get("price", 0))` conversion the
tools apply. -/
structure Product where
  id : String
  name : String
  price : ℚ
  category : String
  description : String
  image : String

/-- Longest-common-subsequence length with structural fuel; any
`fuel ≥ a.length + b.length` computes the true LCS length (fuel keeps the
definition kernel-reducible). -/
def lcsAux : Nat → List Char → List Char → Nat
  | 0, _, _ => 0
  | _ + 1, [], _ => 0
  | _ + 1, _ :: _, [] => 0
  | fuel + 1, a :: as, b :: bs =>
    if a == b then lcsAux fuel as bs + 1
    else max (lcsAux fuel (a :: as) bs) (lcsAux fuel as (b :: bs))

/-- Longest-common-subsequence length of two character lists. -/
def lcsLen (a b : List Char) : Nat := lcsAux (a.length + b.length) a b

/-- rapidfuzz `fuzz.ratio`: the normalized Indel similarity, in percent.
With `dist = m + n - 2·lcs` the score is `100·(1 - dist/(m+n)) = 200·lcs/(m+n)`;
two empty strings score 100. No preprocessing is applied (the source passes no
`processor`), so the comparison is case-sensitive. -/
def fuzzSim (a b : String) : ℚ :=
  if a.data.length + b.data.length = 0 then 100
  else (200 * lcsLen a.data b.data) / ((a.data.length : ℚ) + (b.data.length : ℚ))

/-- Scan loop of rapidfuzz `process.extractOne`: carry the best (index, score)
so far, replacing it only on a strictly larger score, so the first maximum in
candidate order wins. -/
def extractLoop (query : String) (bi : Nat) (bs : ℚ) (i : Nat) :
    List String → Nat × ℚ
  | [] => (bi, bs)
  | n :: rest =>
    if bs < fuzzSim query n then extractLoop query i (fuzzSim query n) (i + 1) rest
    else extractLoop query bi bs (i + 1) rest

/-- rapidfuzz `process.extractOne(query, names, scorer=fuzz.ratio)` restricted
to the (index, score) components the source uses. -/
def extractOne (query : String) : List String → Option (Nat × ℚ)
  | [] => none
  | n :: rest => some (extractLoop query 0 (fuzzSim query n) 1 rest)

/-- Item resolution of `add_to_order_tool` (lines 240-250): first a
case-insensitive exact-name scan over the flattened catalog; if that fails and
the catalog is non-empty, the rapidfuzz best match, accepted when its score
reaches the fixed threshold 70. -/
def resolveProduct (product_name : String) (all_products : List Product) :
    Option Product :=
  match all_products.find? (fun p => pyLower p.name == pyLower product_name) with
  | some p => some p
  | none =>
    match extractOne product_name (all_products.map Product.name) with
    | none => none
    | some (idx, score) => if 70 ≤ score then all_products.get? idx else none

/-- A line item of the dict returned by `add_to_order_tool` on success. -/
structure AddedItem where
  name : String
  quantity : Int
  price : ℚ
  subtotal : ℚ
  image : String

/-- The dict returned by `add_to_order_tool` (both branches populate exactly
these keys). -/
structure AddToOrderReply where
  message : String
  table_number : Int
  items : List AddedItem
  total : ℚ
  redirect : Bool
  redirect_url : String
  audio_url : String

/-- `add_to_order_tool` (lines 224-283), with the catalog fetched from
`GET /products` passed explicitly (already flattened across categories, in
response order). -/
def add_to_order_tool (all_products : List Product) (table_number : Int)
    (product_name : String) (quantity : Int) : AddToOrderReply :=
  match resolveProduct product_name all_products with
  | none =>
    { message := " Sorry, " ++ product_name ++ " is not available in our menu.",
      table_number := table_number, items := [], total := 0,
      redirect := false, redirect_url := "", audio_url := "" }
  | some product =>
    let price := product.price
    let subtotal := price * (quantity : ℚ)
    { message := " " ++ toString quantity ++ " x " ++ product.name ++ " (Rs " ++
        toString price ++ " each) added to Table " ++ toString table_number ++
        "\x27s order. Total Rs " ++ toString subtotal ++ ".",
      table_number := table_number,
      items := [{ name := product.name, quantity := quantity, price := price,
                  subtotal := subtotal, image := product.image }],
      total := subtotal, redirect := true, redirect_url := "/order_summary",
      audio_url := "/agent-audio?file=bdlz401o.mp3" }

/- ===== Order persistence tool (`place_order`, lines 289-340) ===== -/

/-- An element of the `items` argument of `place_order` (`OrderToolItem`). -/
structure OrderToolItem where
  name : String
  quantity : Int

/-- A validated line of the order document `place_order` builds (name, price,
category, description and image snapshotted from the resolved product). -/
structure ValidatedItem where
  id : String
  name : String
  quantity : Int
  price : ℚ
  subtotal : ℚ
  category : String
  description : String
  image : String

/-- The order document `place_order` inserts into the `orders` collection
(`timestamp` is wall-clock, kept out of the embedding). -/
structure OrderDoc where
  tableNumber : Int
  items : List ValidatedItem
  totalAmount : ℚ

/-- The `products.find_one` lookup of `place_order` (line 302), which queries
by an anchored case-insensitive name regex: the first catalog document whose
name equals the query case-insensitively (the regex read for
metacharacter-free names). -/
def findProduct (catalog : List Product) (name : String) : Option Product :=
  catalog.find? (fun p => pyLower p.name == pyLower name)

/-- The dict appended to `validated_items` for one resolved product. -/
def mkValidatedItem (product : Product) (quantity : Int) : ValidatedItem :=
  { id := product.id, name := product.name, quantity := quantity,
    price := product.price, subtotal := product.price * (quantity : ℚ),
    category := product.category, description := product.description,
    image := product.image }

/-- The validation loop of `place_order` (lines 301-321): walk the requested
items in order, return the first unresolvable name as an error, otherwise
accumulate validated lines and the running total. -/
def validateLoop (catalog : List Product) (validated : List ValidatedItem)
    (total : ℚ) : List OrderToolItem → Except String (List ValidatedItem × ℚ)
  | [] => .ok (validated, total)
  | item :: rest =>
    match findProduct catalog item.name with
    | none => .error item.name
    | some product =>
      validateLoop catalog (validated ++ [mkValidatedItem product item.quantity])
        (total + product.price * (item.quantity : ℚ)) rest

/-- Outcome of `place_order`: the early-return not-found dict (naming the
failing item) or the confirmation dict echoing the saved document. -/
inductive PlaceOrderReply where
  | notFound (name : String)
  | confirmed (doc : OrderDoc)

/-- `place_order` (lines 289-340): validate every item, then insert the order
document and return the confirmation. The second component is the list of
documents inserted into `orders` by the call. -/
def place_order (catalog : List Product) (table_number : Int)
    (items : List OrderToolItem) : PlaceOrderReply × List OrderDoc :=
  match validateLoop catalog [] 0 items with
  | .error n => (.notFound n, [])
  | .ok (validated, total) =>
    (.confirmed ⟨table_number, validated, total⟩, [⟨table_number, validated, total⟩])

/-- The `message` field of the dict `place_order` returns. -/
def placeOrderMessage : PlaceOrderReply → String
  | .notFound n => " Item \x27" ++ n ++ "\x27 not found in menu."
  | .confirmed doc =>
    " Order confirmed & saved for Table " ++ toString doc.tableNumber ++
      "! Total bill Rs " ++ toString doc.totalAmount

/- ===== Response normalizer (`ask_agent`, lines 423-547) ===== -/

/-- The canonical response dict of `ask_agent`. The first six fields are the
keys of the literal default dict (lines 464-471); `success` and `audio_url`
are keys the later steps may add, `none` standing for an absent key. -/
structure ResponseData where
  message : JVal
  redirect : JVal
  redirect_url : JVal
  table_number : JVal
  items : JVal
  total : JVal
  success : Option JVal
  audio_url : Option JVal

/-- The default response dict (lines 464-471). -/
def defaultResponse : ResponseData :=
  { message := .str "", redirect := .bool false, redirect_url := .null,
    table_number := .null, items := .arr [], total := .num 0,
    success := none, audio_url := none }

/-- One iteration of the recognized-field copy loop (lines 475-477): overwrite
the response message when the output dict carries the key "message". -/
def copyMessage (out : List (String × JVal)) (r : ResponseData) : ResponseData :=
  match jLookup out "message" with
  | some v => { r with message := v }
  | none => r

/-- Copy-loop iteration for the key "redirect". -/
def copyRedirect (out : List (String × JVal)) (r : ResponseData) : ResponseData :=
  match jLookup out "redirect" with
  | some v => { r with redirect := v }
  | none => r

/-- Copy-loop iteration for the key "redirect_url". -/
def copyRedirectUrl (out : List (String × JVal)) (r : ResponseData) : ResponseData :=
  match jLookup out "redirect_url" with
  | some v => { r with redirect_url := v }
  | none => r

/-- Copy-loop iteration for the key "table_number". -/
def copyTableNumber (out : List (String × JVal)) (r : ResponseData) : ResponseData :=
  match jLookup out "table_number" with
  | some v => { r with table_number := v }
  | none => r

/-- Copy-loop iteration for the key "items". -/
def copyItems (out : List (String × JVal)) (r : ResponseData) : ResponseData :=
  match jLookup out "items" with
  | some v => { r with items := v }
  | none => r

/-- Copy-loop iteration for the key "total". -/
def copyTotal (out : List (String × JVal)) (r : ResponseData) : ResponseData :=
  match jLookup out "total" with
  | some v => { r with total := v }
  | none => r

/-- Copy-loop iteration for the key "success" (a key the default dict lacks;
copying it adds the key). -/
def copySuccess (out : List (String × JVal)) (r : ResponseData) : ResponseData :=
  match jLookup out "success" with
  | some v => { r with success := some v }
  | none => r

/-- The recognized-field copy loop (lines 475-477 and 487-489): for each key of
the fixed list, in source order, overwrite the response entry when the output
dict carries the key. -/
def copyRecognized (out : List (String × JVal)) (r0 : ResponseData) : ResponseData :=
  copySuccess out (copyTotal out (copyItems out (copyTableNumber out
    (copyRedirectUrl out (copyRedirect out (copyMessage out r0))))))

/-- Steps 2-3 of the normalizer (lines 474-493): a dict output goes through the
field copy; a string output is stripped, unfenced, and fed to `json.loads`
(passed in as `jsonLoads`, an external collaborator) — a parsed dict goes
through the field copy, anything else makes the whole original string the
message; other output shapes leave the defaults. -/
def applyOutput (jsonLoads : String → Option JVal) (final_output : JVal)
    (r : ResponseData) : ResponseData :=
  match final_output with
  | .obj fs => copyRecognized fs r
  | .str s =>
    let cleaned := pyStrip s
    let cleaned :=
      if cleaned.startsWith "```json\n" && cleaned.endsWith "\n```" then
        pyStrip ((cleaned.drop 7).dropRight 3)
      else cleaned
    (match jsonLoads cleaned with
      | some (.obj fs) => copyRecognized fs r
      | some _ => { r with message := .str s }
      | none => { r with message := .str s })
  | _ => r

/-- Force-redirect step (lines 495-502): when the redirect flag is still falsy,
scan the lowercased original utterance for the menu keywords, else for the
order keywords. -/
def forceRedirect (question_lower : String) (r : ResponseData) : ResponseData :=
  if (pyIn "menu" question_lower || pyIn "show menu" question_lower ||
      pyIn "mujhe menu" question_lower) && !truthy r.redirect then
    { r with redirect := .bool true, redirect_url := .str "/menu" }
  else if (pyIn "order" question_lower || pyIn "order confirmation" question_lower ||
      pyIn "my order" question_lower || pyIn "mera order" question_lower) &&
      !truthy r.redirect then
    { r with redirect := .bool true, redirect_url := .str "/order_summary" }
  else r

/-- The document the confirm-order safety net inserts into `orders`
(lines 509-515; `timestamp` is wall-clock, kept out of the embedding). -/
structure SavedOrder where
  tableNumber : JVal
  items : JVal
  totalAmount : JVal

/-- The guard `context and context.get("table_number") and context.get("items")`
(line 507) for a parsed context dict. -/
def ctxGuardD (ctx : List (String × JVal)) : Bool :=
  !ctx.isEmpty && truthy ((jLookup ctx "table_number").getD .null) &&
    truthy ((jLookup ctx "items").getD .null)

/-- The same guard over the optional context (`None` is falsy). -/
def ctxGuard : Option (List (String × JVal)) → Bool
  | none => false
  | some ctx => ctxGuardD ctx

/-- The fixed clarification text of the confirm-order safety net (line 527). -/
def clarificationMsg : String :=
  " Please specify both table number and items to confirm your order."

/-- The fixed confirmation text of the confirm-order safety net (line 518). -/
def confirmationMsg : String := " Order confirmed and saved successfully!"

/-- Confirm-order safety net (lines 504-531): when the utterance contains
"confirm order", either persist an order built verbatim from the context and
overwrite the response with it, or overwrite the message with the fixed
clarification. The second component is the list of documents inserted into
`orders` (the insert is modeled as always succeeding; the exception arm of
lines 529-531 is unreachable then). -/
def confirmOrderStage (question_lower : String)
    (context : Option (List (String × JVal))) (r : ResponseData) :
    ResponseData × List SavedOrder :=
  if pyIn "confirm order" question_lower then
    match context with
    | some ctx =>
      if ctxGuardD ctx then
        let saved : SavedOrder :=
          { tableNumber := (jLookup ctx "table_number").getD .null,
            items := (jLookup ctx "items").getD .null,
            totalAmount := (jLookup ctx "total").getD (.num 0) }
        ({ r with message := .str confirmationMsg, redirect := .bool true,
                  redirect_url := .str "/order_summary",
                  table_number := saved.tableNumber, items := saved.items,
                  total := saved.totalAmount }, [saved])
      else ({ r with message := .str clarificationMsg }, [])
    | none => ({ r with message := .str clarificationMsg }, [])
  else (r, [])

/-- Text-to-speech step (lines 533-540): when the message is truthy, synthesize
it (the second component lists the texts handed to gTTS) and attach the audio
URL built from the fresh temp-file name `ttsFile` (external randomness). -/
def ttsStage (ttsFile : String) (r : ResponseData) : ResponseData × List JVal :=
  if truthy r.message then
    ({ r with audio_url := some (.str ("/agent-audio?file=" ++ ttsFile)) },
      [r.message])
  else (r, [])

/-- Everything `ask_agent` does after the dispatch call: the final response and
the persistence / speech side effects. -/
structure ProcessResult where
  response : ResponseData
  saved : List SavedOrder
  tts : List JVal

/-- The normalization pipeline of `ask_agent` on the dispatcher output
(lines 463-540): defaults, field copy, forced redirect from the lowercased
utterance, confirm-order safety net, speech synthesis. -/
def processOutput (jsonLoads : String → Option JVal) (ttsFile : String)
    (question : String) (context : Option (List (String × JVal)))
    (final_output : JVal) : ProcessResult :=
  let r1 := applyOutput jsonLoads final_output defaultResponse
  let question_lower := pyLower question
  let r2 := forceRedirect question_lower r1
  let (r3, saved) := confirmOrderStage question_lower context r2
  let (r4, tts) := ttsStage ttsFile r3
  { response := r4, saved := saved, tts := tts }

/-- A FastAPI `HTTPException` as raised by `ask_agent`. -/
structure HTTPException where
  status_code : Nat
  detail : String

/-- Python `str(e)` for a starlette/FastAPI `HTTPException`: its `__str__`
renders the status code, then a colon and a space, then the detail. -/
def strOfHTTPException (e : HTTPException) : String :=
  toString e.status_code ++ ": " ++ e.detail

/-- Observable outcome of one `/agent` request: the HTTP result plus the
utterances dispatched to the agent, the orders persisted, and the texts
synthesized. -/
structure EndpointTrace where
  outcome : Except HTTPException ResponseData
  dispatched : List String
  saved : List SavedOrder
  ttsCalls : List JVal

/-- The `/agent` endpoint `ask_agent` (lines 423-547). `audioTranscript`
models an uploaded clip by the text the speech collaborator transcribes it to;
`order_summary` is the context already parsed by `json.loads`; `dispatch`
models `Runner.run(main_agent, …)` returning the final output. A raise of
`HTTPException(400, …)` inside the `try` is caught by the blanket
`except Exception` clause and re-raised as status 500 with `str(e)` as detail. -/
def ask_agent (jsonLoads : String → Option JVal) (ttsFile : String)
    (dispatch : String → Option (List (String × JVal)) → JVal)
    (question : Option String) (audioTranscript : Option String)
    (order_summary : Option (List (String × JVal))) : EndpointTrace :=
  let q := match audioTranscript with
    | some t => some t
    | none => question
  match q with
  | none =>
    { outcome := .error ⟨500, strOfHTTPException ⟨400, "No question or audio provided."⟩⟩,
      dispatched := [], saved := [], ttsCalls := [] }
  | some qs =>
    if qs = "" then
      { outcome := .error ⟨500, strOfHTTPException ⟨400, "No question or audio provided."⟩⟩,
        dispatched := [], saved := [], ttsCalls := [] }
    else
      let pr := processOutput jsonLoads ttsFile qs order_summary
        (dispatch qs order_summary)
      { outcome := .ok pr.response, dispatched := [qs], saved := pr.saved,
        ttsCalls := pr.tts }

/- ===== Spec-side measurement for the total/subtotal invariant ===== -/

/-- Spec §3: the subtotal of an order line is its unit price times its
quantity; reads those fields off a JSON line item (absent or non-numeric
fields read as 0). -/
def lineItemSubtotal : JVal → ℚ
  | .obj fs => jNum ((jLookup fs "price").getD .null) *
      jNum ((jLookup fs "quantity").getD .null)
  | _ => 0

/-- Sum of the line subtotals of an order persisted by the confirm-order
safety net (a non-list `items` payload has no lines). -/
def savedSubtotalSum (o : SavedOrder) : ℚ :=
  match o.items with
  | .arr xs => (xs.map lineItemSubtotal).sum
  | _ => 0

/- ===== Concrete sample data for witnesses and counterexamples ===== -/

/-- A sample catalog product. -/
def prodPizza : Product :=
  { id := "p1", name := "Pizza", price := 10, category := "Fast Food",
    description := "Cheese pizza", image := "pizza.png" }

/-- A second sample catalog product. -/
def prodBurger : Product :=
  { id := "p2", name := "Burger", price := 5, category := "Fast Food",
    description := "Beef burger", image := "burger.png" }

/-- A two-product sample catalog. -/
def demoCatalog : List Product := [prodBurger, prodPizza]

/-- The order line of the spec example context: 2 × Pizza at 10 each. -/
def pizzaLine : JVal :=
  .obj [("name", .str "Pizza"), ("quantity", .num 2), ("price", .num 10)]

/-- The spec example context: table "5", one pizza line, total 20. -/
def ctxGood : List (String × JVal) :=
  [("table_number", .str "5"), ("items", .arr [pizzaLine]), ("total", .num 20)]

/-- The same context with a total that does not match the line subtotals. -/
def ctxBad : List (String × JVal) :=
  [("table_number", .str "5"), ("items", .arr [pizzaLine]), ("total", .num 999)]

/- ===== Helper lemmas: fuzzy matcher ===== -/

theorem lcsAux_le_left : ∀ (fuel : Nat) (a b : List Char),
    lcsAux fuel a b ≤ a.length
  | 0, _, _ => Nat.zero_le _
  | _ + 1, [], _ => Nat.zero_le _
  | _ + 1, _ :: _, [] => Nat.zero_le _
  | fuel + 1, a :: as, b :: bs => by
    rw [lcsAux]
    by_cases h : (a == b) = true
    · simpa [h] using Nat.succ_le_succ (lcsAux_le_left fuel as bs)
    · simp only [h, if_false, Bool.false_eq_true]
      exact max_le (lcsAux_le_left fuel (a :: as) bs)
        (le_trans (lcsAux_le_left fuel as (b :: bs)) (by simp))

theorem lcsAux_le_right : ∀ (fuel : Nat) (a b : List Char),
    lcsAux fuel a b ≤ b.length
  | 0, _, _ => Nat.zero_le _
  | _ + 1, [], _ => Nat.zero_le _
  | _ + 1, _ :: _, [] => Nat.zero_le _
  | fuel + 1, a :: as, b :: bs => by
    rw [lcsAux]
    by_cases h : (a == b) = true
    · simpa [h] using Nat.succ_le_succ (lcsAux_le_right fuel as bs)
    · simp only [h, if_false, Bool.false_eq_true]
      exact max_le (le_trans (lcsAux_le_right fuel (a :: as) bs) (by simp))
        (lcsAux_le_right fuel as (b :: bs))

theorem fuzzSim_nonneg (a b : String) : 0 ≤ fuzzSim a b := by
  unfold fuzzSim
  split
  · norm_num
  · positivity

theorem fuzzSim_le_100 (a b : String) : fuzzSim a b ≤ 100 := by
  unfold fuzzSim
  split
  · norm_num
  · rename_i h
    have hm : lcsLen a.data b.data ≤ a.data.length := lcsAux_le_left _ _ _
    have hn : lcsLen a.data b.data ≤ b.data.length := lcsAux_le_right _ _ _
    have hpos : (0 : ℚ) < (a.data.length : ℚ) + (b.data.length : ℚ) := by
      have : 0 < a.data.length + b.data.length := Nat.pos_of_ne_zero h
      exact_mod_cast this
    rw [div_le_iff₀ hpos]
    have : (lcsLen a.data b.data : ℚ) + (lcsLen a.data b.data : ℚ) ≤
        (a.data.length : ℚ) + (b.data.length : ℚ) := by
      have := add_le_add hm hn
      exact_mod_cast this
    nlinarith

theorem extractLoop_spec (q : String) :
    ∀ (names : List String) (i bi : Nat) (bs : ℚ),
      bs ≤ (extractLoop q bi bs i names).2 ∧
      (∀ n ∈ names, fuzzSim q n ≤ (extractLoop q bi bs i names).2) ∧
      (((extractLoop q bi bs i names).1 = bi ∧ (extractLoop q bi bs i names).2 = bs) ∨
        ∃ k, ∃ hk : k < names.length, (extractLoop q bi bs i names).1 = i + k ∧
          (extractLoop q bi bs i names).2 = fuzzSim q (names.get ⟨k, hk⟩))
  | [], i, bi, bs => by simp [extractLoop]
  | n :: rest, i, bi, bs => by
    by_cases h : bs < fuzzSim q n
    · have heq : extractLoop q bi bs i (n :: rest) =
          extractLoop q i (fuzzSim q n) (i + 1) rest := by
        rw [extractLoop]; simp [h]
      have ih := extractLoop_spec q rest (i + 1) i (fuzzSim q n)
      rw [heq]
      refine ⟨le_of_lt (lt_of_lt_of_le h ih.1), ?_, ?_⟩
      · intro m hm
        rcases List.mem_cons.mp hm with hm | hm
        · subst hm; exact ih.1
        · exact ih.2.1 m hm
      · rcases ih.2.2 with ⟨h1, h2⟩ | ⟨k, hk, h1, h2⟩
        · exact Or.inr ⟨0, by simp, by simpa using h1, by simpa using h2⟩
        · refine Or.inr ⟨k + 1, by simpa using Nat.succ_lt_succ hk, ?_, ?_⟩
          · rw [h1]; omega
          · simpa using h2
    · have heq : extractLoop q bi bs i (n :: rest) =
          extractLoop q bi bs (i + 1) rest := by
        rw [extractLoop]; simp [h]
      have ih := extractLoop_spec q rest (i + 1) bi bs
      rw [heq]
      refine ⟨ih.1, ?_, ?_⟩
      · intro m hm
        rcases List.mem_cons.mp hm with hm | hm
        · subst hm; exact le_trans (le_of_not_lt h) ih.1
        · exact ih.2.1 m hm
      · rcases ih.2.2 with ⟨h1, h2⟩ | ⟨k, hk, h1, h2⟩
        · exact Or.inl ⟨h1, h2⟩
        · refine Or.inr ⟨k + 1, by simpa using Nat.succ_lt_succ hk, ?_, ?_⟩
          · rw [h1]; omega
          · simpa using h2

theorem extractOne_spec (q : String) (names : List String) (h : names ≠ []) :
    ∃ j, ∃ hj : j < names.length,
      extractOne q names = some (j, fuzzSim q (names.get ⟨j, hj⟩)) ∧
      ∀ n ∈ names, fuzzSim q n ≤ fuzzSim q (names.get ⟨j, hj⟩) := by
  match names, h with
  | n :: rest, _ =>
    have hs := extractLoop_spec q rest 1 0 (fuzzSim q n)
    rcases hs.2.2 with ⟨h1, h2⟩ | ⟨k, hk, h1, h2⟩
    · refine ⟨0, by simp, ?_, ?_⟩
      · rw [extractOne]
        congr 1
        rw [Prod.ext_iff]
        exact ⟨h1, by simpa using h2⟩
      · intro m hm
        rcases List.mem_cons.mp hm with hm | hm
        · subst hm; simp
        · simpa [h2] using hs.2.1 m hm
    · refine ⟨k + 1, by simpa using Nat.succ_lt_succ hk, ?_, ?_⟩
      · rw [extractOne]
        congr 1
        rw [Prod.ext_iff]
        refine ⟨by rw [h1]; omega, by simpa using h2⟩
      · intro m hm
        have hval : (List.get (n :: rest) ⟨k + 1, by simpa using Nat.succ_lt_succ hk⟩) =
            rest.get ⟨k, hk⟩ := by simp
        rcases List.mem_cons.mp hm with hm | hm
        · subst hm
          rw [hval, ← h2]
          exact hs.1
        · rw [hval, ← h2]
          exact hs.2.1 m hm

theorem find?_first {α : Type _} (p : α → Bool) :
    ∀ (l : List α) (j : Nat) (hj : j < l.length),
      p (l.get ⟨j, hj⟩) = true →
      (∀ k (hk : k < l.length), k < j → p (l.get ⟨k, hk⟩) = false) →
      l.find? p = some (l.get ⟨j, hj⟩)
  | [], j, hj => by simp at hj
  | a :: as, 0, hj => fun hpj _ => by
    have ha : p a = true := by simpa using hpj
    simp [List.find?_cons, ha]
  | a :: as, j + 1, hj => fun hpj hfirst => by
    have ha : p a = false := hfirst 0 (by simp) (Nat.succ_pos j)
    have hj2 : j < as.length := by simpa using hj
    have ih := find?_first p as j hj2 (by simpa using hpj)
      (fun k hk hkj => by
        simpa using hfirst (k + 1) (by simpa using Nat.succ_lt_succ hk)
          (Nat.succ_lt_succ hkj))
    simp [List.find?_cons, ha, ih]

theorem fuzzSim_pizzaa : fuzzSim "Pizzaa" "Pizza" = 1000 / 11 := by
  unfold fuzzSim
  norm_num [show lcsLen "Pizzaa".data "Pizza".data = 5 from by decide,
    show "Pizzaa".data.length = 6 from by decide,
    show "Pizza".data.length = 5 from by decide]

theorem fuzzSim_xyzzy : fuzzSim "xyzzy" "Pizza" = 40 := by
  unfold fuzzSim
  norm_num [show lcsLen "xyzzy".data "Pizza".data = 2 from by decide,
    show "xyzzy".data.length = 5 from by decide,
    show "Pizza".data.length = 5 from by decide]

theorem resolve_pizzaa : resolveProduct "Pizzaa" [prodPizza] = some prodPizza := by
  unfold resolveProduct
  rw [Option.isNone_iff_eq_none.mp (by decide :
    (List.find? (fun p => pyLower p.name == pyLower "Pizzaa") [prodPizza]).isNone = true)]
  simp [extractOne, extractLoop, prodPizza, fuzzSim_pizzaa]
  norm_num

theorem resolve_xyzzy : resolveProduct "xyzzy" [prodPizza] = none := by
  unfold resolveProduct
  rw [Option.isNone_iff_eq_none.mp (by decide :
    (List.find? (fun p => pyLower p.name == pyLower "xyzzy") [prodPizza]).isNone = true)]
  simp [extractOne, extractLoop, prodPizza, fuzzSim_xyzzy]
  norm_num

/-- C3: on a query with no case-insensitive exact match, the resolver scores
every candidate with the normalized similarity (always in 0..100), and returns
a candidate exactly when it is maximum-scoring with score ≥ 70; an empty
candidate set or a below-threshold maximum yields not-found (`none`). -/
theorem fuzzy_resolution_threshold (q : String) (catalog : List Product)
    (hne : ∀ p ∈ catalog, pyLower p.name ≠ pyLower q) :
    (∀ s, 0 ≤ fuzzSim q s ∧ fuzzSim q s ≤ 100) ∧
    (∀ c, resolveProduct q catalog = some c →
        c ∈ catalog ∧ 70 ≤ fuzzSim q c.name ∧
        ∀ p ∈ catalog, fuzzSim q p.name ≤ fuzzSim q c.name) ∧
    (resolveProduct q catalog = none ↔
      (catalog = [] ∨ ∀ p ∈ catalog, fuzzSim q p.name < 70)) := by
  have hfind : List.find? (fun p => pyLower p.name == pyLower q) catalog = none :=
    List.find?_eq_none.mpr (fun p hp => by simpa using hne p hp)
  cases catalog with
  | nil =>
    refine ⟨fun s => ⟨fuzzSim_nonneg q s, fuzzSim_le_100 q s⟩, ?_, ?_⟩
    · intro c hc
      rw [resolveProduct, hfind] at hc
      simp [extractOne] at hc
    · simp [resolveProduct, hfind, extractOne]
  | cons a as =>
    obtain ⟨j, hj, hext, hmax⟩ :=
      extractOne_spec q ((a :: as).map Product.name) (by simp)
    have hj2 : j < (a :: as).length := by simpa using hj
    have hname : ((a :: as).map Product.name).get ⟨j, hj⟩ =
        ((a :: as).get ⟨j, hj2⟩).name := by
      rw [List.get_eq_getElem, List.get_eq_getElem]
      exact List.getElem_map Product.name
    have hres : resolveProduct q (a :: as) =
        if 70 ≤ fuzzSim q ((a :: as).get ⟨j, hj2⟩).name then
          some ((a :: as).get ⟨j, hj2⟩) else none := by
      rw [resolveProduct, hfind]
      simp only [hext, hname]
      rw [List.get?_eq_get hj2]
    refine ⟨fun s => ⟨fuzzSim_nonneg q s, fuzzSim_le_100 q s⟩, ?_, ?_⟩
    · intro c hc
      rw [hres] at hc
      by_cases hsc : 70 ≤ fuzzSim q ((a :: as).get ⟨j, hj2⟩).name
      · rw [if_pos hsc] at hc
        obtain rfl : (a :: as).get ⟨j, hj2⟩ = c := by injection hc
        refine ⟨List.get_mem _ _ _, hsc, ?_⟩
        intro p hp
        have hle := hmax p.name (List.mem_map_of_mem Product.name hp)
        rwa [hname] at hle
      · rw [if_neg hsc] at hc
        cases hc
    · rw [hres]
      by_cases hsc : 70 ≤ fuzzSim q ((a :: as).get ⟨j, hj2⟩).name
      · rw [if_pos hsc]
        constructor
        · intro h; cases h
        · rintro (h | h)
          · cases h
          · have hlt := h ((a :: as).get ⟨j, hj2⟩) (List.get_mem _ _ _)
            exact absurd hsc (not_le.mpr hlt)
      · rw [if_neg hsc]
        constructor
        · intro _
          refine Or.inr (fun p hp => ?_)
          have hle := hmax p.name (List.mem_map_of_mem Product.name hp)
          rw [hname] at hle
          exact lt_of_le_of_lt hle (not_le.mp hsc)
        · intro _; rfl

/-- Witness for C3 at the catalog `[prodPizza]` and the query "Pizzaa", which
has no exact match and fuzzy-resolves to the pizza with score 1000/11 ≥ 70. -/
theorem fuzzy_resolution_threshold_witness :
    70 ≤ fuzzSim "Pizzaa" "Pizza" ∧ fuzzSim "Pizzaa" "Pizza" ≤ 100 := by
  have h := fuzzy_resolution_threshold "Pizzaa" [prodPizza] (by decide)
  exact ⟨(h.2.1 prodPizza resolve_pizzaa).2.1, (h.1 "Pizza").2⟩

/-- C4: a query that case-insensitively equals the name of the j-th candidate,
with no earlier candidate matching, resolves to that candidate — the
similarity scorer is behind the short-circuit and is never consulted. -/
theorem exact_match_short_circuit (q : String) (catalog : List Product)
    (j : Nat) (hj : j < catalog.length)
    (hmatch : pyLower (catalog.get ⟨j, hj⟩).name = pyLower q)
    (hfirst : ∀ k (hk : k < catalog.length), k < j →
        pyLower (catalog.get ⟨k, hk⟩).name ≠ pyLower q) :
    resolveProduct q catalog = some (catalog.get ⟨j, hj⟩) := by
  unfold resolveProduct
  rw [find?_first (fun p => pyLower p.name == pyLower q) catalog j hj
    (by simpa using hmatch) (fun k hk hkj => by simpa using hfirst k hk hkj)]

/-- Witness for C4: "PIZZA" exactly matches the second catalog entry (the
first, "Burger", does not match). -/
theorem exact_match_short_circuit_witness :
    resolveProduct "PIZZA" demoCatalog = some prodPizza :=
  exact_match_short_circuit "PIZZA" demoCatalog 1 (by decide) (by decide)
    (by decide)

/-- C5: when resolution fails, `add_to_order_tool` returns (rather than
raising) a dict whose message names the unresolved item, with an empty items
list and total 0. -/
theorem addToOrder_not_found (all_products : List Product) (table_number : Int)
    (product_name : String) (quantity : Int)
    (h : resolveProduct product_name all_products = none) :
    add_to_order_tool all_products table_number product_name quantity =
      { message := " Sorry, " ++ product_name ++ " is not available in our menu.",
        table_number := table_number, items := [], total := 0,
        redirect := false, redirect_url := "", audio_url := "" } := by
  unfold add_to_order_tool
  rw [h]

/-- Witness for C5: "xyzzy" does not resolve against `[prodPizza]` (best score
40 < 70), and the tool returns the not-found dict. -/
theorem addToOrder_not_found_witness :
    add_to_order_tool [prodPizza] 3 "xyzzy" 1 =
      { message := " Sorry, xyzzy is not available in our menu.",
        table_number := 3, items := [], total := 0,
        redirect := false, redirect_url := "", audio_url := "" } :=
  addToOrder_not_found [prodPizza] 3 "xyzzy" 1 resolve_xyzzy

/- ===== Helper lemmas: place_order validation loop ===== -/

theorem validateLoop_ok_sum (catalog : List Product) (items : List OrderToolItem) :
    ∀ (validated : List ValidatedItem) (total : ℚ) (vs : List ValidatedItem) (t : ℚ),
      total = (validated.map ValidatedItem.subtotal).sum →
      validateLoop catalog validated total items = .ok (vs, t) →
      t = (vs.map ValidatedItem.subtotal).sum := by
  induction items with
  | nil =>
    intro v total vs t hinv h
    rw [validateLoop] at h
    simp only [Except.ok.injEq, Prod.mk.injEq] at h
    obtain ⟨rfl, rfl⟩ := h
    exact hinv
  | cons item rest ih =>
    intro v total vs t hinv h
    rw [validateLoop] at h
    cases hfp : findProduct catalog item.name with
    | none => rw [hfp] at h; cases h
    | some product =>
      rw [hfp] at h
      refine ih _ _ vs t ?_ h
      rw [hinv]
      simp [mkValidatedItem, List.map_append]

theorem validateLoop_ok_iff (catalog : List Product) (items : List OrderToolItem) :
    ∀ (validated : List ValidatedItem) (total : ℚ),
      (∃ vt, validateLoop catalog validated total items = .ok vt) ↔
        ∀ it ∈ items, (findProduct catalog it.name).isSome = true := by
  induction items with
  | nil =>
    intro v t
    constructor
    · intro _ it hit; simp at hit
    · intro _; exact ⟨(v, t), by rw [validateLoop]⟩
  | cons item rest ih =>
    intro v t
    cases hfp : findProduct catalog item.name with
    | none =>
      constructor
      · rintro ⟨vt, hvt⟩
        rw [validateLoop, hfp] at hvt
        cases hvt
      · intro hall
        have hh := hall item (List.mem_cons_self _ _)
        rw [hfp] at hh
        exact absurd hh (by simp)
    | some product =>
      constructor
      · rintro ⟨vt, hvt⟩
        rw [validateLoop, hfp] at hvt
        intro it hit
        rcases List.mem_cons.mp hit with rfl | hit
        · rw [hfp]; rfl
        · exact ((ih _ _).mp ⟨vt, hvt⟩) it hit
      · intro hall
        obtain ⟨vt, hvt⟩ := (ih (v ++ [mkValidatedItem product item.quantity])
          (t + product.price * (item.quantity : ℚ))).mpr
          (fun it hit => hall it (List.mem_cons_of_mem _ hit))
        exact ⟨vt, by rw [validateLoop, hfp]; exact hvt⟩

theorem validateLoop_error (catalog : List Product) (items : List OrderToolItem) :
    ∀ (validated : List ValidatedItem) (total : ℚ) (n : String),
      validateLoop catalog validated total items = .error n →
      findProduct catalog n = none ∧ n ∈ items.map OrderToolItem.name := by
  induction items with
  | nil => intro v t n h; rw [validateLoop] at h; cases h
  | cons item rest ih =>
    intro v t n h
    rw [validateLoop] at h
    cases hfp : findProduct catalog item.name with
    | none =>
      rw [hfp] at h
      injection h with h
      subst h
      exact ⟨hfp, by simp⟩
    | some product =>
      rw [hfp] at h
      obtain ⟨h1, h2⟩ := ih _ _ n h
      exact ⟨h1, by simp [h2]⟩

/-- C2 (amended): an order persisted by `place_order` carries a totalAmount
equal to the sum of its validated line subtotals, while the confirm-order
safety net persists the caller-supplied context total verbatim (defaulting to
0), with no reconciliation against the line items. -/
theorem persisted_total_invariant :
    (∀ (catalog : List Product) (table_number : Int) (items : List OrderToolItem)
        (doc : OrderDoc),
        (place_order catalog table_number items).1 = .confirmed doc →
        doc.totalAmount = (doc.items.map ValidatedItem.subtotal).sum) ∧
    (∀ (question_lower : String) (ctx : List (String × JVal)) (r : ResponseData),
        ∀ o ∈ (confirmOrderStage question_lower (some ctx) r).2,
          o.totalAmount = (jLookup ctx "total").getD (.num 0)) := by
  constructor
  · intro catalog tn items doc h
    unfold place_order at h
    cases hv : validateLoop catalog [] 0 items with
    | error n => rw [hv] at h; cases h
    | ok vt =>
      obtain ⟨vs, t⟩ := vt
      rw [hv] at h
      simp only [PlaceOrderReply.confirmed.injEq] at h
      subst h
      exact validateLoop_ok_sum catalog items [] 0 vs t (by simp) hv
  · intro ql ctx r o ho
    unfold confirmOrderStage at ho
    by_cases hq : pyIn "confirm order" ql = true
    · by_cases hg : ctxGuardD ctx = true
      · simp only [hq, hg, if_true, List.mem_singleton] at ho
        subst ho
        rfl
      · simp only [hq, if_true, Bool.not_eq_true] at ho
        rw [Bool.not_eq_true] at hg
        simp [hg] at ho
    · simp [hq] at ho

/-- Evaluation of `place_order` on the demo catalog: "pizza" resolves to
`prodPizza` case-insensitively and the order confirms with total 20. -/
theorem place_order_demo :
    (place_order demoCatalog 4 [⟨"pizza", 2⟩]).1 =
      .confirmed ⟨4, [mkValidatedItem prodPizza 2], 20⟩ := by
  have h1 : validateLoop demoCatalog [] 0 [⟨"pizza", 2⟩] =
      .ok ([mkValidatedItem prodPizza 2], (20 : ℚ)) := by
    simp only [validateLoop,
      show findProduct demoCatalog "pizza" = some prodPizza from rfl]
    norm_num [prodPizza]
  unfold place_order
  rw [h1]

/-- Membership evaluation of the confirm-order safety net on the spec example
context (table "5", one 2 × 10 pizza line, total 20). -/
theorem confirm_stage_good_mem :
    (⟨.str "5", .arr [pizzaLine], .num 20⟩ : SavedOrder) ∈
      (confirmOrderStage "confirm order" (some ctxGood) defaultResponse).2 := by
  rw [show (confirmOrderStage "confirm order" (some ctxGood) defaultResponse).2 =
    [⟨.str "5", .arr [pizzaLine], .num 20⟩] from rfl]
  exact List.mem_singleton.mpr rfl

/-- Witness for C2 (amended), instantiating both halves: the demo
`place_order` document satisfies the subtotal-sum invariant, and the
safety-net document for the example context carries the context total. -/
theorem persisted_total_invariant_witness :
    (OrderDoc.mk 4 [mkValidatedItem prodPizza 2] 20).totalAmount =
      ((OrderDoc.mk 4 [mkValidatedItem prodPizza 2] 20).items.map
        ValidatedItem.subtotal).sum ∧
    (SavedOrder.mk (.str "5") (.arr [pizzaLine]) (.num 20)).totalAmount =
      (jLookup ctxGood "total").getD (.num 0) :=
  ⟨persisted_total_invariant.1 demoCatalog 4 [⟨"pizza", 2⟩]
      (OrderDoc.mk 4 [mkValidatedItem prodPizza 2] 20) place_order_demo,
    persisted_total_invariant.2 "confirm order" ctxGood defaultResponse
      (SavedOrder.mk (.str "5") (.arr [pizzaLine]) (.num 20)) confirm_stage_good_mem⟩

/-- Counterexample to C2 as stated: with a context whose total is 999 over a
single 2 × 10 line, the safety net persists totalAmount 999, while the sum of
the line subtotals is 20. -/
theorem persisted_total_counterexample :
    (confirmOrderStage "confirm order" (some ctxBad) defaultResponse).2 =
      [⟨.str "5", .arr [pizzaLine], .num 999⟩] ∧
    jNum (SavedOrder.totalAmount ⟨.str "5", .arr [pizzaLine], .num 999⟩) = 999 ∧
    savedSubtotalSum ⟨.str "5", .arr [pizzaLine], .num 999⟩ = 20 ∧
    (999 : ℚ) ≠ 20 := by
  refine ⟨rfl, rfl, ?_, by norm_num⟩
  have h : savedSubtotalSum ⟨.str "5", .arr [pizzaLine], .num 999⟩ =
      (10 : ℚ) * 2 + 0 := rfl
  rw [h]
  norm_num

/-- C6: `place_order` persists a document exactly when every requested item
has a case-insensitive exact catalog match; on any unresolved item it
persists nothing and returns the not-found reply naming an unresolved item
(the first one), whose rendered message contains that name. -/
theorem place_order_all_or_nothing (catalog : List Product) (table_number : Int)
    (items : List OrderToolItem) :
    ((place_order catalog table_number items).2 ≠ [] ↔
      ∀ it ∈ items, (findProduct catalog it.name).isSome = true) ∧
    (∀ n, (place_order catalog table_number items).1 = .notFound n →
      (place_order catalog table_number items).2 = [] ∧
      findProduct catalog n = none ∧ n ∈ items.map OrderToolItem.name ∧
      pyIn n (placeOrderMessage (.notFound n)) = true) := by
  constructor
  · constructor
    · intro hne
      cases hv : validateLoop catalog [] 0 items with
      | error n =>
        unfold place_order at hne
        rw [hv] at hne
        simp at hne
      | ok vt => exact (validateLoop_ok_iff catalog items [] 0).mp ⟨vt, hv⟩
    · intro hall
      obtain ⟨⟨vs, t⟩, hv⟩ := (validateLoop_ok_iff catalog items [] 0).mpr hall
      unfold place_order
      rw [hv]
      simp
  · intro n h
    unfold place_order at h ⊢
    cases hv : validateLoop catalog [] 0 items with
    | ok vt =>
      obtain ⟨vs, t⟩ := vt
      rw [hv] at h
      cases h
    | error m =>
      have hmn : m = n := by
        rw [hv] at h
        injection h
      subst hmn
      obtain ⟨h1, h2⟩ := validateLoop_error catalog items [] 0 m hv
      refine ⟨rfl, h1, h2, ?_⟩
      unfold placeOrderMessage
      simp only [pyIn, decide_eq_true_eq]
      exact ⟨" Item \x27".data, "\x27 not found in menu.".data, by
        rw [String.data_append, String.data_append]⟩

/-- Witness for C6: the demo order resolves fully, so a document is written. -/
theorem place_order_all_or_nothing_witness :
    (place_order demoCatalog 4 [⟨"pizza", 2⟩]).2 ≠ [] :=
  (place_order_all_or_nothing demoCatalog 4 [⟨"pizza", 2⟩]).1.mpr (by decide)

/- ===== Normalizer theorems ===== -/

theorem copyMessage_eq (out : List (String × JVal)) (r : ResponseData) :
    copyMessage out r = { r with message := (jLookup out "message").getD r.message } := by
  cases h : jLookup out "message" <;> simp [copyMessage, h]

theorem copyRedirect_eq (out : List (String × JVal)) (r : ResponseData) :
    copyRedirect out r = { r with redirect := (jLookup out "redirect").getD r.redirect } := by
  cases h : jLookup out "redirect" <;> simp [copyRedirect, h]

theorem copyRedirectUrl_eq (out : List (String × JVal)) (r : ResponseData) :
    copyRedirectUrl out r = { r with redirect_url := (jLookup out "redirect_url").getD r.redirect_url } := by
  cases h : jLookup out "redirect_url" <;> simp [copyRedirectUrl, h]

theorem copyTableNumber_eq (out : List (String × JVal)) (r : ResponseData) :
    copyTableNumber out r = { r with table_number := (jLookup out "table_number").getD r.table_number } := by
  cases h : jLookup out "table_number" <;> simp [copyTableNumber, h]

theorem copyItems_eq (out : List (String × JVal)) (r : ResponseData) :
    copyItems out r = { r with items := (jLookup out "items").getD r.items } := by
  cases h : jLookup out "items" <;> simp [copyItems, h]

theorem copyTotal_eq (out : List (String × JVal)) (r : ResponseData) :
    copyTotal out r = { r with total := (jLookup out "total").getD r.total } := by
  cases h : jLookup out "total" <;> simp [copyTotal, h]

theorem copySuccess_eq (out : List (String × JVal)) (r : ResponseData) :
    copySuccess out r = { r with success := ((jLookup out "success").map some).getD r.success } := by
  cases h : jLookup out "success" <;> simp [copySuccess, h]

/-- C1: on any dispatch whose utterance contains "confirm order" and whose
context passes the usability guard (truthy table number and items), the
safety net persists exactly one order built verbatim from the context fields
(table_number, items, and total defaulting to 0) — no catalog access occurs on
this path — and overwrites the canonical response message, redirect,
redirect_url, table_number, items and total, whatever the handler produced. -/
theorem confirm_context_persists (jsonLoads : String → Option JVal)
    (ttsFile : String) (question : String) (ctx : List (String × JVal))
    (final_output : JVal) (tn its : JVal)
    (hconf : pyIn "confirm order" (pyLower question) = true)
    (hguard : ctxGuardD ctx = true)
    (htn : jLookup ctx "table_number" = some tn)
    (hits : jLookup ctx "items" = some its) :
    (processOutput jsonLoads ttsFile question (some ctx) final_output).saved =
      [⟨tn, its, (jLookup ctx "total").getD (.num 0)⟩] ∧
    (processOutput jsonLoads ttsFile question (some ctx) final_output).response.message =
      .str confirmationMsg ∧
    (processOutput jsonLoads ttsFile question (some ctx) final_output).response.redirect =
      .bool true ∧
    (processOutput jsonLoads ttsFile question (some ctx) final_output).response.redirect_url =
      .str "/order_summary" ∧
    (processOutput jsonLoads ttsFile question (some ctx) final_output).response.table_number =
      tn ∧
    (processOutput jsonLoads ttsFile question (some ctx) final_output).response.items =
      its ∧
    (processOutput jsonLoads ttsFile question (some ctx) final_output).response.total =
      (jLookup ctx "total").getD (.num 0) := by
  have htruthy : truthy (.str confirmationMsg) = true := by decide
  have hstage : ∀ r, confirmOrderStage (pyLower question) (some ctx) r =
      (ResponseData.mk (.str confirmationMsg) (.bool true) (.str "/order_summary")
        tn its ((jLookup ctx "total").getD (.num 0)) r.success r.audio_url,
       [⟨tn, its, (jLookup ctx "total").getD (.num 0)⟩]) := by
    intro r
    unfold confirmOrderStage
    simp [hconf, hguard, htn, hits]
  unfold processOutput
  simp only [hstage]
  simp [ttsStage, htruthy]

/-- Witness for C1 on the spec example context and the bare utterance
"confirm order" (handler output irrelevant: `null` here). -/
theorem confirm_context_persists_witness :
    (processOutput (fun _ => none) "out.mp3" "confirm order" (some ctxGood) .null).saved =
      [⟨.str "5", .arr [pizzaLine], .num 20⟩] ∧
    (processOutput (fun _ => none) "out.mp3" "confirm order" (some ctxGood) .null).response.message =
      .str confirmationMsg ∧
    (processOutput (fun _ => none) "out.mp3" "confirm order" (some ctxGood) .null).response.redirect =
      .bool true ∧
    (processOutput (fun _ => none) "out.mp3" "confirm order" (some ctxGood) .null).response.redirect_url =
      .str "/order_summary" ∧
    (processOutput (fun _ => none) "out.mp3" "confirm order" (some ctxGood) .null).response.table_number =
      .str "5" ∧
    (processOutput (fun _ => none) "out.mp3" "confirm order" (some ctxGood) .null).response.items =
      .arr [pizzaLine] ∧
    (processOutput (fun _ => none) "out.mp3" "confirm order" (some ctxGood) .null).response.total =
      .num 20 :=
  confirm_context_persists (fun _ => none) "out.mp3" "confirm order" ctxGood .null
    (.str "5") (.arr [pizzaLine]) (by decide) (by decide) rfl rfl

/-- C7: on any dispatch whose utterance contains "confirm order" but whose
context fails the usability guard (no context, or no truthy table number /
items), the safety net persists nothing and the final response message is the
fixed clarification text. -/
theorem confirm_unusable_context_clarifies (jsonLoads : String → Option JVal)
    (ttsFile : String) (question : String)
    (context : Option (List (String × JVal))) (final_output : JVal)
    (hconf : pyIn "confirm order" (pyLower question) = true)
    (hctx : ctxGuard context = false) :
    (processOutput jsonLoads ttsFile question context final_output).response.message =
      .str clarificationMsg ∧
    (processOutput jsonLoads ttsFile question context final_output).saved = [] := by
  have htruthy : truthy (.str clarificationMsg) = true := by decide
  have hstage : ∀ r, confirmOrderStage (pyLower question) context r =
      ({ r with message := .str clarificationMsg }, []) := by
    intro r
    unfold confirmOrderStage
    cases context with
    | none => simp [hconf]
    | some ctx =>
      have hg : ctxGuardD ctx = false := by simpa [ctxGuard] using hctx
      simp [hconf, hg]
  unfold processOutput
  simp only [hstage]
  simp [ttsStage, htruthy]

/-- Witness for C7: utterance "confirm order" with no context at all. -/
theorem confirm_unusable_context_clarifies_witness :
    (processOutput (fun _ => none) "out2.mp3" "confirm order" none .null).response.message =
      .str clarificationMsg ∧
    (processOutput (fun _ => none) "out2.mp3" "confirm order" none .null).saved = [] :=
  confirm_unusable_context_clarifies (fun _ => none) "out2.mp3" "confirm order"
    none .null (by decide) rfl

/-- C8: the redirect-inference step scans the (lowercased) original utterance,
not the handler output: with the redirect flag still falsy, a menu keyword
forces the menu view; otherwise an order keyword forces the order-summary
view; and a truthy redirect flag is never overridden. -/
theorem redirect_inference (question_lower : String) (r : ResponseData) :
    (truthy r.redirect = false →
      (pyIn "menu" question_lower || pyIn "show menu" question_lower ||
        pyIn "mujhe menu" question_lower) = true →
      forceRedirect question_lower r =
        { r with redirect := .bool true, redirect_url := .str "/menu" }) ∧
    (truthy r.redirect = false →
      (pyIn "menu" question_lower || pyIn "show menu" question_lower ||
        pyIn "mujhe menu" question_lower) = false →
      (pyIn "order" question_lower || pyIn "order confirmation" question_lower ||
        pyIn "my order" question_lower || pyIn "mera order" question_lower) = true →
      forceRedirect question_lower r =
        { r with redirect := .bool true, redirect_url := .str "/order_summary" }) ∧
    (truthy r.redirect = true → forceRedirect question_lower r = r) := by
  refine ⟨?_, ?_, ?_⟩
  · intro hr hm
    unfold forceRedirect
    simp [hm, hr]
  · intro hr hm ho
    unfold forceRedirect
    simp [hm, ho, hr]
  · intro hr
    unfold forceRedirect
    simp [hr]

/-- Witness for C8: the spec example "mujhe menu dikhao" on a handler output
with no redirect (the defaults) forces the menu redirect. -/
theorem redirect_inference_witness :
    forceRedirect (pyLower "mujhe menu dikhao") defaultResponse =
      { defaultResponse with redirect := .bool true, redirect_url := .str "/menu" } :=
  (redirect_inference (pyLower "mujhe menu dikhao") defaultResponse).1
    (by decide) (by decide)

/-- C9: normalizing a structured handler output copies exactly the recognized
keys that are present and leaves every absent recognized field at its default
(message "", redirect false, redirect_url null, table_number null, items [],
total 0, no success key, no audio_url); the canonical record has no other
fields, so unrecognized keys of the output are dropped. -/
theorem normalizer_field_copy (jsonLoads : String → Option JVal)
    (fs : List (String × JVal)) :
    (applyOutput jsonLoads (.obj fs) defaultResponse).message =
      (jLookup fs "message").getD (.str "") ∧
    (applyOutput jsonLoads (.obj fs) defaultResponse).redirect =
      (jLookup fs "redirect").getD (.bool false) ∧
    (applyOutput jsonLoads (.obj fs) defaultResponse).redirect_url =
      (jLookup fs "redirect_url").getD .null ∧
    (applyOutput jsonLoads (.obj fs) defaultResponse).table_number =
      (jLookup fs "table_number").getD .null ∧
    (applyOutput jsonLoads (.obj fs) defaultResponse).items =
      (jLookup fs "items").getD (.arr []) ∧
    (applyOutput jsonLoads (.obj fs) defaultResponse).total =
      (jLookup fs "total").getD (.num 0) ∧
    (applyOutput jsonLoads (.obj fs) defaultResponse).success =
      jLookup fs "success" ∧
    (applyOutput jsonLoads (.obj fs) defaultResponse).audio_url = none := by
  have happ : applyOutput jsonLoads (.obj fs) defaultResponse =
      copyRecognized fs defaultResponse := rfl
  rw [happ]
  unfold copyRecognized
  rw [copyMessage_eq, copyRedirect_eq, copyRedirectUrl_eq, copyTableNumber_eq,
    copyItems_eq, copyTotal_eq, copySuccess_eq]
  refine ⟨by simp [defaultResponse], by simp [defaultResponse],
    by simp [defaultResponse], by simp [defaultResponse], by simp [defaultResponse],
    by simp [defaultResponse], ?_, by simp [defaultResponse]⟩
  cases hs : jLookup fs "success" <;> simp [defaultResponse, hs]

/-- Witness for C9 at a concrete one-key output: only the message is copied,
everything else stays at the defaults. -/
theorem normalizer_field_copy_witness :
    (applyOutput (fun _ => none) (.obj [("message", .str "hi")]) defaultResponse).message =
      .str "hi" ∧
    (applyOutput (fun _ => none) (.obj [("message", .str "hi")]) defaultResponse).redirect =
      .bool false ∧
    (applyOutput (fun _ => none) (.obj [("message", .str "hi")]) defaultResponse).total =
      .num 0 := by
  have h := normalizer_field_copy (fun _ => none) [("message", .str "hi")]
  exact ⟨h.1, h.2.1, h.2.2.2.2.2.1⟩

/-- C10 (amended): a request with neither question text nor audio is rejected
before any dispatch: no agent call, no persistence, no speech synthesis, and
the endpoint fails with status 500 — the in-handler `HTTPException(400, …)` is
caught by the blanket `except` and re-raised as a 500 whose detail is the
`str()` rendering "400: No question or audio provided.", which embeds (but is
not equal to) the original message. -/
theorem no_question_500 (jsonLoads : String → Option JVal) (ttsFile : String)
    (dispatch : String → Option (List (String × JVal)) → JVal)
    (order_summary : Option (List (String × JVal))) :
    ask_agent jsonLoads ttsFile dispatch none none order_summary =
      { outcome := .error ⟨500, "400: No question or audio provided."⟩,
        dispatched := [], saved := [], ttsCalls := [] } ∧
    pyIn "No question or audio provided." "400: No question or audio provided." =
      true :=
  ⟨rfl, by decide⟩

/-- Counterexample to C10 as stated: the detail of the 500 is the `str()` rendering
of the original exception, which is not the original message itself. -/
theorem no_question_500_counterexample :
    (ask_agent (fun _ => none) "t.mp3" (fun _ _ => .null) none none none).outcome =
      .error ⟨500, "400: No question or audio provided."⟩ ∧
    "400: No question or audio provided." ≠ "No question or audio provided." :=
  ⟨rfl, by decide⟩
